import Mathlib

set_option synthInstance.maxSize 1024

/-!
A verification development for the PDA engine in `src/pda.py` (with the
exception taxonomy of `src/exc.py`).  The Python data model is embedded
shallowly:

* Python strings (state labels, input symbols, stack symbols) become `Label`;
* Python dicts become association lists that preserve insertion order, with
  lookup returning the first match (Python dicts have unique keys, so this
  coincides with dict lookup on all images of real Python values);
* Python sets become lists with membership queries;
* a raised exception becomes `Except.error` carrying the exception kind;
* the BFS of `PDA.validate_input` becomes an explicit step function
  `search_expand`/`search_step` iterated by a fuelled loop `search_loop`;
  termination of the loop is proved separately (`search_loop_ne_out`), so
  the fuel is an upper bound that is never exhausted, not a semantic device.

The repository files `automaton.py` (base class `Automaton`) and `stack.py`
(class `PDAStack`) are not available; the operations `validate_input` uses
from them are modelled from the spec and marked `Modelled from the spec:`.
-/

/-- Labels: Python strings, used for states, input symbols and stack symbols. -/
abbrev Label := String

/-- One nondeterministic alternative of the transition table: a Python dict
mapping the stack symbol currently on top to `(next state, replacement)`.
The replacement string of `pda.py` is a sequence of stack symbols; the empty
replacement (Python `''`) is the empty list. -/
abbrev TransPath := List (Label × (Label × List Label))

/-- The transition entry of one state: a dict from input symbol (`""` is the
epsilon/lambda key) to the list of alternatives. -/
abbrev StateTrans := List (Label × List TransPath)

/-- The full transition table: a dict from source state to its entry. -/
abbrev TransTable := List (Label × StateTrans)

/-- Association-list lookup, the embedding of Python dict indexing `d[k]`
(first matching key; Python dicts have unique keys). -/
def alookup {α : Type} (m : List (Label × α)) (k : Label) : Option α :=
  (m.find? fun p => p.1 == k).map Prod.snd

/-- The formal-definition fields of `PDA` (`pda.py`, `_init_from_formal_params`). -/
structure PDA where
  states : List Label
  input_symbols : List Label
  stack_symbols : List Label
  transitions : TransTable
  initial_state : Label
  initial_stack_symbol : Label
  final_states : List Label
deriving DecidableEq

/-- Python dict equality (`==` on two alternatives): equal key-to-value
mappings, irrespective of insertion order.  Used by the `in` test of
`_validate_transition_lambda_transition_sibling` (`pda.py` line 60), where a
whole alternative dict is tested for membership in the list
`transitions[start_state]['']`. -/
def pathEq (a b : TransPath) : Bool :=
  (a.all fun kv => alookup b kv.1 == some kv.2) &&
    (b.all fun kv => alookup a kv.1 == some kv.2)

/-- Exception kinds of `exc.py` that the embedded code can signal, plus
`nondeterminism` (the class `pda.py` line 62 names) and the empty-stack
failure of the stack contract (spec 4.1). -/
inductive AutomatonErr where
  | invalidState
  | invalidSymbol
  | missingState
  | nondeterminism
  | emptyStack
deriving DecidableEq

/-- `self.transitions[state]` with the containment test `state in
self.transitions` folded in: an absent state behaves as an empty entry
(the Python code guards every access with a containment test). -/
def state_trans (pda : PDA) (s : Label) : StateTrans :=
  (alookup pda.transitions s).getD []

/-- `self.transitions[state]['']`, the epsilon alternatives of a state, with
the containment tests folded in as for `state_trans`. -/
def eps_alts (pda : PDA) (s : Label) : List TransPath :=
  (alookup (state_trans pda s) "").getD []

/-- `_validate_transition_invalid_input_symbols` (`pda.py` lines 77-83). -/
def validate_transition_invalid_input_symbols (pda : PDA)
    (start_state input_symbol : Label) : Except AutomatonErr Unit :=
  if !(pda.input_symbols.contains input_symbol) && input_symbol != "" then
    .error .invalidSymbol
  else .ok ()

/-- `_validate_transition_invalid_stack_symbols` (`pda.py` lines 85-91). -/
def validate_transition_invalid_stack_symbols (pda : PDA)
    (start_state stack_symbol : Label) : Except AutomatonErr Unit :=
  if !(pda.stack_symbols.contains stack_symbol) then
    .error .invalidSymbol
  else .ok ()

/-- `_validate_transition_lambda_transition_sibling` (`pda.py` lines 56-64):
`for other_stack_symbol in sib_path` iterates the LIST of alternatives, so
each `other_stack_symbol` is in fact a whole alternative dict, and the `in`
test against `transitions[start_state]['']` is dict-content membership. -/
def validate_transition_lambda_transition_sibling (pda : PDA) (start_state : Label)
    (sib_path : List TransPath) : Except AutomatonErr Unit :=
  sib_path.forM fun other_stack_symbol =>
    if (eps_alts pda start_state).any fun p => pathEq other_stack_symbol p then
      .error .nondeterminism
    else .ok ()

/-- `_validate_transition_isolated_lambda_transitions` (`pda.py` lines 66-75).
The `stack_symbol` argument is unused, exactly as in the source. -/
def validate_transition_isolated_lambda_transitions (pda : PDA)
    (start_state input_symbol stack_symbol : Label) : Except AutomatonErr Unit :=
  if input_symbol == "" then
    (state_trans pda start_state).forM fun sib =>
      if sib.1 != "" then
        validate_transition_lambda_transition_sibling pda start_state sib.2
      else .ok ()
  else .ok ()

/-- `_validate_transition_invalid_symbols` (`pda.py` lines 44-54): for each
input symbol of the entry, check it, then for each alternative and each of
its stack-symbol KEYS run the isolated-lambda check and the stack-symbol
check.  Values (next state, replacement) are not inspected. -/
def validate_transition_invalid_symbols (pda : PDA) (start_state : Label)
    (paths : StateTrans) : Except AutomatonErr Unit :=
  paths.forM fun entry => do
    validate_transition_invalid_input_symbols pda start_state entry.1
    entry.2.forM fun symbol_path =>
      symbol_path.forM fun kv => do
        validate_transition_isolated_lambda_transitions pda start_state entry.1 kv.1
        validate_transition_invalid_stack_symbols pda start_state kv.1

/-- `_validate_initial_stack_symbol` (`pda.py` lines 93-98). -/
def validate_initial_stack_symbol (pda : PDA) : Except AutomatonErr Unit :=
  if !(pda.stack_symbols.contains pda.initial_stack_symbol) then
    .error .invalidSymbol
  else .ok ()

/-- Modelled from the spec: `_validate_initial_state` lives in the missing
base class `Automaton` (`automaton.py`); spec 4.2 says construction confirms
the initial state is declared, a state-kind failure otherwise. -/
def validate_initial_state (pda : PDA) : Except AutomatonErr Unit :=
  if !(pda.states.contains pda.initial_state) then
    .error .invalidState
  else .ok ()

/-- Modelled from the spec: `_validate_final_states` lives in the missing
base class `Automaton` (`automaton.py`); spec 4.2 says construction confirms
every accepting state is declared. -/
def validate_final_states (pda : PDA) : Except AutomatonErr Unit :=
  if !(pda.final_states.all fun s => pda.states.contains s) then
    .error .invalidState
  else .ok ()

/-- `validate_self` (`pda.py` lines 100-107). -/
def validate_self (pda : PDA) : Except AutomatonErr Unit := do
  pda.transitions.forM fun entry =>
    validate_transition_invalid_symbols pda entry.1 entry.2
  validate_initial_state pda
  validate_initial_stack_symbol pda
  validate_final_states pda

/-- `_init_from_formal_params` (`pda.py` lines 31-42): copy the fields (value
semantics in the embedding) and run `validate_self`; construction yields the
automaton only when validation succeeds. -/
def init_from_formal_params (states input_symbols stack_symbols : List Label)
    (transitions : TransTable) (initial_state initial_stack_symbol : Label)
    (final_states : List Label) : Except AutomatonErr PDA :=
  let pda : PDA := ⟨states, input_symbols, stack_symbols, transitions,
    initial_state, initial_stack_symbol, final_states⟩
  (validate_self pda).map fun _ => pda

/-- `_init_from_pda` (`pda.py` lines 22-29): deep-copy construction re-enters
`__init__` with the source's fields, hence re-runs validation. -/
def init_from_pda (p : PDA) : Except AutomatonErr PDA :=
  init_from_formal_params p.states p.input_symbols p.stack_symbols
    p.transitions p.initial_state p.initial_stack_symbol p.final_states

/-- A configuration of the search: `(state, stack contents, input cursor)`.
The stack is a `PDAStack` by content (spec 4.1: equality and hashing are by
ordered symbol sequence), top at the END of the list as in the Python list
underlying `PDAStack`. -/
abbrev Config := Label × List Label × Nat

/-- Modelled from the spec: `PDAStack.replace` of the missing `stack.py`
removes the top symbol and appends the given sequence in order, so the
sequence's last element becomes the new top (spec 4.1); `_replace_stack_top`
(`pda.py` lines 109-113) pops when the replacement is empty and calls
`replace` otherwise. -/
def replace_stack_top (stack : List Label) (new_stack_top : List Label) : List Label :=
  if new_stack_top = [] then stack.dropLast
  else stack.dropLast ++ new_stack_top

/-- The successors enqueued by the consuming-move block of `validate_input`
(`pda.py` lines 152-162): for every alternative under the current input
symbol whose keys include the stack top, the successor `(new_state, stack
with top replaced, index+1)` is appended unless it is already in `visited`.
`stack.top()` of the missing `stack.py` is modelled from the spec as the
last-pushed symbol (`List.getLast?` here). -/
def consuming_succs (pda : PDA) (input_str : List Label) (visited : List Config)
    (stack : List Label) (stack_symbol state : Label) (index : Nat) : List Config :=
  let input_symbol := input_str.getD index ""
  let paths := (alookup (state_trans pda state) input_symbol).getD []
  paths.filterMap fun path =>
    match alookup path stack_symbol with
    | none => none
    | some (new_state, new_stack_top) =>
      let c : Config := (new_state, replace_stack_top stack new_stack_top, index + 1)
      if visited.contains c then none else some c

/-- The state of the BFS of `validate_input`: the frontier deque (`states` in
the source, `pda.py` line 119) and the `visited` set. -/
structure SearchState where
  states : List Config
  visited : List Config
deriving DecidableEq

/-- Outcome of one iteration of the `while` loop of `validate_input`:
either the function returns (`done`), or the loop continues (`next`). -/
inductive StepRes where
  | done : Except AutomatonErr Bool → StepRes
  | next : SearchState → StepRes

/-- The body of the `while` loop of `validate_input` (`pda.py` lines 123-162)
for a dequeued configuration `(state, stack, index)` with remaining frontier
`rest`:
1. add the configuration to `visited` (line 125);
2. accept if the cursor is at the end and the state is accepting (127-128);
3. skip the configuration if the cursor passed the end (130-131);
4. read the stack top (line 133); an empty stack makes `stack.top()` fail
   (spec 4.1), aborting the query with an empty-stack error;
5. if some epsilon alternative has the stack top among its keys the function
   returns `False` on the spot (line 146); the successor appended at line 144
   is unobservable because of that return, so it is dropped here;
6. at the end of the input, skip (lines 148-149);
7. otherwise enqueue every not-yet-visited consuming successor (152-162). -/
def search_expand (pda : PDA) (input_str : List Label) (state : Label)
    (stack : List Label) (index : Nat) (rest visited0 : List Config) : StepRes :=
  if (index == input_str.length) && pda.final_states.contains state then
    .done (.ok true)
  else if input_str.length < index then
    .next ⟨rest, visited0.insert (state, stack, index)⟩
  else
    match stack.getLast? with
    | none => .done (.error .emptyStack)
    | some stack_symbol =>
      if ((eps_alts pda state).find? fun path =>
          (alookup path stack_symbol).isSome).isSome then
        .done (.ok false)
      else if index == input_str.length then
        .next ⟨rest, visited0.insert (state, stack, index)⟩
      else
        .next ⟨rest ++ consuming_succs pda input_str
            (visited0.insert (state, stack, index)) stack stack_symbol state index,
          visited0.insert (state, stack, index)⟩

/-- One iteration of the `while` loop of `validate_input`: an empty frontier
returns `False` (`pda.py` line 164), otherwise the head is dequeued
(`popleft`, line 124) and expanded. -/
def search_step (pda : PDA) (input_str : List Label) (st : SearchState) : StepRes :=
  match st with
  | ⟨[], _⟩ => .done (.ok false)
  | ⟨(state, stack, index) :: rest, visited0⟩ =>
    search_expand pda input_str state stack index rest visited0

/-- Result of running the loop with a fuel budget; `out` never occurs for the
budget `fuel_bound` (theorem `search_terminates`). -/
inductive SearchRes where
  | out
  | result : Except AutomatonErr Bool → SearchRes

/-- The `while` loop of `validate_input`, iterated under a fuel budget. -/
def search_loop (pda : PDA) (input_str : List Label) :
    Nat → SearchState → SearchRes
  | 0, _ => .out
  | fuel + 1, st =>
    match search_step pda input_str st with
    | .done r => .result r
    | .next st' => search_loop pda input_str fuel st'

/-- Total number of alternatives in the transition table, over all states and
input symbols; one loop iteration enqueues at most this many successors. -/
def total_alts (pda : PDA) : Nat :=
  (pda.transitions.map fun entry =>
    (entry.2.map fun ip => ip.2.length).sum).sum

/-- A fuel budget proved sufficient for `search_loop` (`search_terminates`). -/
def fuel_bound (pda : PDA) (input_str : List Label) : Nat :=
  (total_alts pda + 1) ^ (input_str.length + 1) + 1

/-- The initial search state of `validate_input` (`pda.py` lines 119-121):
the frontier holds `(initial state, stack with only the initial stack
symbol, cursor 0)` and the visited set is empty. -/
def initial_search_state (pda : PDA) : SearchState :=
  ⟨[(pda.initial_state, [pda.initial_stack_symbol], 0)], []⟩

/-- `validate_input` (`pda.py` lines 115-164): run the BFS loop to completion.
The fuel is an upper bound on the number of iterations (`search_terminates`);
the `out` branch is unreachable. -/
def validate_input (pda : PDA) (input_str : List Label) : Except AutomatonErr Bool :=
  match search_loop pda input_str (fuel_bound pda input_str)
      (initial_search_state pda) with
  | .result r => r
  | .out => .ok false

/-- Weight of a configuration for the termination measure: `b` to the power
of the remaining cursor budget. -/
def cfg_weight (b len : Nat) (c : Config) : Nat :=
  b ^ (len + 1 - c.2.2)

/-- Weight of a frontier: the sum of its configurations' weights.  Every loop
iteration that continues strictly decreases this measure. -/
def frontier_weight (b len : Nat) (l : List Config) : Nat :=
  (l.map (cfg_weight b len)).sum

/-- The balanced-parentheses automaton of spec 8: stack alphabet `{Z, P}`,
states `{q0, q1}`, both accepting; reading `(` pushes `P` (over `Z` or over
`P`), reading `)` pops while the top is `P`. -/
def paren_pda : PDA :=
  { states := ["q0", "q1"]
    input_symbols := ["(", ")"]
    stack_symbols := ["Z", "P"]
    transitions :=
      [("q0", [("(", [[("Z", ("q0", ["Z", "P"])), ("P", ("q0", ["P", "P"]))]]),
               (")", [[("P", ("q0", []))]])])]
    initial_state := "q0"
    initial_stack_symbol := "Z"
    final_states := ["q0", "q1"] }

/-- An automaton whose only move pops the lone stack symbol: reading `a` in
`q0` with top `Z` pops.  On input `"aa"` the configuration `(q0, empty
stack, 1)` is dequeued with input left to consume. -/
def pop_pda : PDA :=
  { states := ["q0"]
    input_symbols := ["a"]
    stack_symbols := ["Z"]
    transitions := [("q0", [("a", [[("Z", ("q0", []))]])])]
    initial_state := "q0"
    initial_stack_symbol := "Z"
    final_states := ["q0"] }

/-- An automaton with a single epsilon move from the initial state to the
accepting state `q1`, keeping the stack: exhaustive search accepts `""`. -/
def eps_accept_pda : PDA :=
  { states := ["q0", "q1"]
    input_symbols := ["a"]
    stack_symbols := ["Z"]
    transitions := [("q0", [("", [[("Z", ("q1", ["Z"]))]])])]
    initial_state := "q0"
    initial_stack_symbol := "Z"
    final_states := ["q1"] }

/-- An automaton whose transition table references an undeclared source state
`phantom` and an undeclared destination state `ghost`; every symbol, the
initial state, the initial stack symbol and the final states are declared. -/
def phantom_pda : PDA :=
  { states := ["q0"]
    input_symbols := ["a"]
    stack_symbols := ["Z"]
    transitions := [("phantom", [("a", [[("Z", ("ghost", ["Z"]))]])])]
    initial_state := "q0"
    initial_stack_symbol := "Z"
    final_states := ["q0"] }

/-- An automaton where the stack symbol `Z` is keyed both under the epsilon
move and under the `a` move of state `q0`, with different targets. -/
def shared_key_pda : PDA :=
  { states := ["q0", "q1"]
    input_symbols := ["a"]
    stack_symbols := ["Z"]
    transitions := [("q0", [("", [[("Z", ("q1", ["Z"]))]]),
                            ("a", [[("Z", ("q0", ["Z", "Z"]))]])])]
    initial_state := "q0"
    initial_stack_symbol := "Z"
    final_states := ["q0"] }

/-- Like `shared_key_pda`, but the `a` alternative is the very same mapping
as the epsilon alternative. -/
def dup_alt_pda : PDA :=
  { states := ["q0", "q1"]
    input_symbols := ["a"]
    stack_symbols := ["Z"]
    transitions := [("q0", [("", [[("Z", ("q1", ["Z"]))]]),
                            ("a", [[("Z", ("q1", ["Z"]))]])])]
    initial_state := "q0"
    initial_stack_symbol := "Z"
    final_states := ["q0"] }

/-- An automaton with two identical alternatives under `(q0, a)`: expanding
the initial configuration computes the same successor twice. -/
def dup_succ_pda : PDA :=
  { states := ["q0", "q1"]
    input_symbols := ["a"]
    stack_symbols := ["Z"]
    transitions := [("q0", [("a", [[("Z", ("q1", ["Z"]))],
                                   [("Z", ("q1", ["Z"]))]])])]
    initial_state := "q0"
    initial_stack_symbol := "Z"
    final_states := ["q1"] }

/-- An automaton whose only transition rewrites the stack top to the
undeclared stack symbol `W` inside the replacement sequence. -/
def bad_replacement_pda : PDA :=
  { states := ["q0"]
    input_symbols := ["a"]
    stack_symbols := ["Z"]
    transitions := [("q0", [("a", [[("Z", ("q0", ["W"]))]])])]
    initial_state := "q0"
    initial_stack_symbol := "Z"
    final_states := ["q0"] }

/-- An automaton whose only transition is keyed on the undeclared stack
symbol `Y`. -/
def bad_key_pda : PDA :=
  { states := ["q0"]
    input_symbols := ["a"]
    stack_symbols := ["Z"]
    transitions := [("q0", [("a", [[("Y", ("q0", ["Z"]))]])])]
    initial_state := "q0"
    initial_stack_symbol := "Z"
    final_states := ["q0"] }

/-- An automaton with a sparse table: state `q1` has no entry at all, and
state `q0` has an entry for `a` only (no `b`, no epsilon). -/
def sparse_pda : PDA :=
  { states := ["q0", "q1"]
    input_symbols := ["a", "b"]
    stack_symbols := ["Z"]
    transitions := [("q0", [("a", [[("Z", ("q1", ["Z"]))]])])]
    initial_state := "q0"
    initial_stack_symbol := "Z"
    final_states := ["q1"] }

/-- Claim C1: in `validate_input`, processing an applicable epsilon
alternative immediately returns `False` for the whole query (`return False`,
`pda.py` line 146).  For `eps_accept_pda` on the empty input the query
returns `false` although the automaton validates, `q1` is accepting, and the
single epsilon alternative rewrites `(q0, [Z], 0)` to the accepting
configuration `(q1, [Z], 0)`: exhaustive search would accept.  This
contradicts the claim that epsilon processing never by itself terminates the
search or decides the returned boolean. -/
theorem epsilon_shortcut_bug :
    validate_self eps_accept_pda = .ok () ∧
    validate_input eps_accept_pda [] = Except.ok false ∧
    eps_accept_pda.final_states.contains "q1" = true ∧
    eps_alts eps_accept_pda "q0" = [[("Z", ("q1", ["Z"]))]] :=
  ⟨rfl, rfl, rfl, rfl⟩

/-- Claim C2 (counterexample): the balanced-parentheses automaton of the spec
scenario accepts the input `"("`, whereas the claim demands `false`.  Both
states are accepting and acceptance checks only cursor-at-end and final
state, never the stack top. -/
theorem paren_single_open_accepted :
    validate_self paren_pda = .ok () ∧
    validate_input paren_pda ["("] = Except.ok true :=
  ⟨rfl, rfl⟩

/-- Claim C2 (amended): the balanced-parentheses automaton yields `true` for
`"(())"`, `""` and also `"("` (every state is accepting, so any run reaching
the end of the input accepts regardless of the stack top), and `false` for
`")("`. -/
theorem paren_outcomes_amended :
    validate_input paren_pda ["(", "(", ")", ")"] = Except.ok true ∧
    validate_input paren_pda [] = Except.ok true ∧
    validate_input paren_pda ["("] = Except.ok true ∧
    validate_input paren_pda [")", "("] = Except.ok false :=
  ⟨rfl, rfl, rfl, rfl⟩

/-- Claim C3: dequeuing a configuration with an empty stack that is not an
accepting end-of-input configuration makes the query abort with an
empty-stack error: `validate_input` calls `stack.top()` (`pda.py` line 133)
with no emptiness check, and `top()` fails on an empty stack (spec 4.1).
The branch is not silently abandoned. -/
theorem empty_stack_raises (pda : PDA) (w : List Label) (state : Label)
    (index : Nat) (rest visited0 : List Config)
    (h1 : ((index == w.length) && pda.final_states.contains state) = false)
    (h2 : ¬ w.length < index) :
    search_expand pda w state [] index rest visited0 =
      .done (.error AutomatonErr.emptyStack) := by
  simp [search_expand, h1, h2]
  intro he
  subst he
  simpa using h1

/-- Witness for `empty_stack_raises`: `pop_pda` reaches exactly such a
configuration, `(q0, empty stack, 1)` on input `"aa"`; here the lemma is
instantiated at the analogous concrete configuration `(q0, [], 0)` of the
one-letter input. -/
theorem empty_stack_raises_witness :
    search_expand pop_pda ["a"] "q0" [] 0 [] [] =
      .done (.error AutomatonErr.emptyStack) :=
  empty_stack_raises pop_pda ["a"] "q0" 0 [] [] (by decide) (by decide)

/-- Claim C4 (counterexample): `phantom_pda`, whose transition table has the
undeclared source state `phantom` and the undeclared destination state
`ghost`, passes `validate_self`; no state-kind error is raised. -/
theorem undeclared_states_not_rejected :
    validate_self phantom_pda = .ok () ∧
    phantom_pda.states.contains "phantom" = false ∧
    phantom_pda.states.contains "ghost" = false :=
  ⟨rfl, rfl, rfl⟩

/-- Claim C4 (amended): construction-time validation never examines
transition source or destination states; a definition whose transitions
reference undeclared states constructs successfully and an automaton object
is returned, provided its symbols, initial state, initial stack symbol and
final states are valid. -/
theorem undeclared_states_pass_validation :
    init_from_formal_params phantom_pda.states phantom_pda.input_symbols
        phantom_pda.stack_symbols phantom_pda.transitions
        phantom_pda.initial_state phantom_pda.initial_stack_symbol
        phantom_pda.final_states = Except.ok phantom_pda ∧
    alookup phantom_pda.transitions "phantom" =
      some [("a", [[("Z", ("ghost", ["Z"]))]])] ∧
    phantom_pda.states.contains "phantom" = false ∧
    phantom_pda.states.contains "ghost" = false :=
  ⟨rfl, rfl, rfl, rfl⟩

/-- Claim C5 (counterexample): `shared_key_pda` keys the stack symbol `Z`
both under the epsilon move and under the `a` move of `q0` (with different
targets), yet the one and only construction path succeeds: no
`NondeterminismError` is raised for a merely shared stack key, and there is
no strict-mode switch in the source that could make it fail. -/
theorem shared_stack_key_accepted :
    validate_self shared_key_pda = .ok () ∧
    ((eps_alts shared_key_pda "q0").any fun p => (alookup p "Z").isSome) = true ∧
    (((alookup (state_trans shared_key_pda "q0") "a").getD []).any
      fun p => (alookup p "Z").isSome) = true :=
  ⟨rfl, rfl, rfl⟩

/-- Claim C5 (amended): the lambda-adjacency check always runs (there is no
strict-mode switch), but it raises `NondeterminismError` only when an entire
non-epsilon alternative equals, as a key-to-value mapping, some epsilon
alternative of the same state; a shared stack key with different targets
constructs successfully. -/
theorem lambda_adjacency_check_amended :
    validate_self shared_key_pda = Except.ok () ∧
    validate_self dup_alt_pda = Except.error AutomatonErr.nondeterminism :=
  ⟨rfl, rfl⟩

/-- Claim C6 (counterexample): `pop_pda` passes construction-time validation,
yet on input `"aa"` the acceptance query returns neither `true` nor `false`:
it aborts with an empty-stack error when the configuration `(q0, empty
stack, 1)` is dequeued. -/
theorem validated_pda_error_outcome :
    validate_self pop_pda = Except.ok () ∧
    validate_input pop_pda ["a", "a"] = Except.error AutomatonErr.emptyStack :=
  ⟨rfl, rfl⟩

/-- Claim C7 (counterexample): expanding the initial configuration of
`dup_succ_pda` on input `"a"` enqueues the configuration `(q1, [Z], 1)`
twice: the visited set only receives configurations when they are dequeued,
so the second identical successor is not suppressed.  A configuration equal
to one previously enqueued is enqueued a second time. -/
theorem duplicate_enqueue :
    validate_self dup_succ_pda = Except.ok () ∧
    search_step dup_succ_pda ["a"] ⟨[("q0", ["Z"], 0)], []⟩ =
      .next ⟨[("q1", ["Z"], 1), ("q1", ["Z"], 1)], [("q0", ["Z"], 0)]⟩ :=
  ⟨rfl, rfl⟩

/-- Claim C8 (counterexample): `bad_replacement_pda` rewrites the stack top
to the undeclared stack symbol `W` inside a replacement sequence, yet passes
`validate_self`: values of the alternatives (next state and replacement
sequence) are never inspected by construction-time validation. -/
theorem undeclared_replacement_not_rejected :
    validate_self bad_replacement_pda = .ok () ∧
    bad_replacement_pda.stack_symbols.contains "W" = false ∧
    alookup bad_replacement_pda.transitions "q0" =
      some [("a", [[("Z", ("q0", ["W"]))]])] :=
  ⟨rfl, rfl, rfl⟩

/-- Claim C8 (amended): validation checks that every stack-symbol KEY of
every alternative is declared (`InvalidSymbolError` otherwise:
`bad_key_pda`), but never inspects next states or replacement sequences, so
a replacement containing an undeclared stack symbol passes construction
(`bad_replacement_pda`). -/
theorem replacement_validation_amended :
    validate_self bad_replacement_pda = Except.ok () ∧
    validate_self bad_key_pda = Except.error AutomatonErr.invalidSymbol :=
  ⟨rfl, rfl⟩

/-- Claim C9: deep-copy construction re-enters `__init__` with the source's
fields and therefore re-runs full validation (`init_from_pda` equals
construction-with-validation on the same fields), and any automaton it
returns answers every acceptance query exactly as the original does. -/
theorem copy_construction_revalidates (p : PDA) (w : List Label) :
    init_from_pda p = (validate_self p).map (fun _ => p) ∧
    ∀ p', init_from_pda p = Except.ok p' →
      validate_input p' w = validate_input p w := by
  refine ⟨rfl, ?_⟩
  intro p' hp'
  have h : (validate_self p).map (fun _ => p) = Except.ok p' := hp'
  cases hv : validate_self p with
  | ok u => rw [hv] at h; simp [Except.map] at h; rw [h]
  | error e => rw [hv] at h; simp [Except.map] at h

/-- Witness for `copy_construction_revalidates` at the concrete automaton
`paren_pda` and input `"("`. -/
theorem copy_construction_revalidates_witness :
    init_from_pda paren_pda = Except.ok paren_pda ∧
    validate_input paren_pda ["("] = validate_input paren_pda ["("] :=
  ⟨rfl, (copy_construction_revalidates paren_pda ["("]).2 paren_pda rfl⟩

theorem alookup_rec {α : Type} {m : List (Label × α)} {k : Label} {v : α}
    (h : alookup m k = some v) : ∃ pr, pr ∈ m ∧ pr.2 = v := by
  unfold alookup at h
  cases hf : m.find? (fun p => p.1 == k) with
  | none => rw [hf] at h; cases h
  | some pr =>
    rw [hf] at h
    cases h
    exact ⟨pr, List.mem_of_find?_eq_some hf, rfl⟩

theorem consuming_succs_mem {pda : PDA} {w : List Label} {visited : List Config}
    {stack : List Label} {x state : Label} {index : Nat} {c : Config}
    (h : c ∈ consuming_succs pda w visited stack x state index) :
    c.2.2 = index + 1 ∧ visited.contains c = false := by
  unfold consuming_succs at h
  obtain ⟨path, hmem, hf⟩ := List.mem_filterMap.mp h
  cases ha : alookup path x with
  | none => rw [ha] at hf; cases hf
  | some pr =>
    obtain ⟨ns, nt⟩ := pr
    rw [ha] at hf
    dsimp at hf
    split at hf
    · cases hf
    · rename_i hcon
      cases hf
      exact ⟨rfl, Bool.eq_false_iff.mpr hcon⟩

theorem consuming_succs_length (pda : PDA) (w : List Label) (visited : List Config)
    (stack : List Label) (x state : Label) (index : Nat) :
    (consuming_succs pda w visited stack x state index).length ≤ total_alts pda := by
  unfold consuming_succs
  refine le_trans (List.length_filterMap_le _ _) ?_
  unfold state_trans
  cases h1 : alookup pda.transitions state with
  | none => simp [alookup]
  | some paths0 =>
    rw [Option.getD_some]
    cases h2 : alookup paths0 (w.getD index "") with
    | none => simp
    | some ps =>
      rw [Option.getD_some]
      obtain ⟨pr1, hmem1, hsnd1⟩ := alookup_rec h1
      obtain ⟨pr2, hmem2, hsnd2⟩ := alookup_rec h2
      unfold total_alts
      calc ps.length = pr2.2.length := by rw [hsnd2]
        _ ≤ (paths0.map fun ip => ip.2.length).sum :=
            List.single_le_sum (by simp) _ (List.mem_map_of_mem _ hmem2)
        _ = ((pr1.2).map fun ip => ip.2.length).sum := by rw [hsnd1]
        _ ≤ (pda.transitions.map fun entry =>
              (entry.2.map fun ip => ip.2.length).sum).sum :=
            List.single_le_sum (by simp) _ (List.mem_map_of_mem _ hmem1)

theorem search_step_next_cases (pda : PDA) (w : List Label) (st st' : SearchState)
    (h : search_step pda w st = .next st') :
    ∃ state stack index rest, st.states = (state, stack, index) :: rest ∧
      st'.visited = st.visited.insert (state, stack, index) ∧
      (st'.states = rest ∨
        ∃ stack_symbol, stack.getLast? = some stack_symbol ∧ index < w.length ∧
          st'.states = rest ++ consuming_succs pda w
            (st.visited.insert (state, stack, index)) stack stack_symbol state index) := by
  obtain ⟨qs, vis⟩ := st
  cases qs with
  | nil => simp [search_step] at h
  | cons c rest =>
    obtain ⟨state, stack, index⟩ := c
    refine ⟨state, stack, index, rest, rfl, ?_⟩
    simp only [search_step] at h
    unfold search_expand at h
    split at h
    · cases h
    · split at h
      · cases h
        exact ⟨rfl, Or.inl rfl⟩
      · split at h
        · cases h
        · next stack_symbol hg =>
          split at h
          · cases h
          · split at h
            · cases h
              exact ⟨rfl, Or.inl rfl⟩
            · next hne =>
              cases h
              refine ⟨rfl, Or.inr ⟨stack_symbol, hg, ?_, rfl⟩⟩
              next hb h2 =>
              have : index ≠ w.length := by simpa using hne
              omega

theorem frontier_weight_cons (b len : Nat) (c : Config) (l : List Config) :
    frontier_weight b len (c :: l) = cfg_weight b len c + frontier_weight b len l := by
  simp [frontier_weight]

theorem frontier_weight_append (b len : Nat) (l1 l2 : List Config) :
    frontier_weight b len (l1 ++ l2) =
      frontier_weight b len l1 + frontier_weight b len l2 := by
  simp [frontier_weight]

theorem frontier_weight_bound (b len index : Nat) (l : List Config)
    (h : ∀ c ∈ l, c.2.2 = index + 1) :
    frontier_weight b len l ≤ l.length * b ^ (len - index) := by
  induction l with
  | nil => simp [frontier_weight]
  | cons c t ih =>
    have hc : c.2.2 = index + 1 := h c (List.mem_cons_self c t)
    have ht := ih fun d hd => h d (List.mem_cons_of_mem c hd)
    have hcw : cfg_weight b len c = b ^ (len - index) := by
      unfold cfg_weight
      rw [hc]
      congr 1
      omega
    rw [frontier_weight_cons, hcw, List.length_cons, Nat.succ_mul]
    omega

theorem step_decrease (pda : PDA) (w : List Label) (st st' : SearchState)
    (h : search_step pda w st = .next st') :
    frontier_weight (total_alts pda + 1) w.length st'.states <
      frontier_weight (total_alts pda + 1) w.length st.states := by
  obtain ⟨state, stack, index, rest, hs, _, hcase⟩ :=
    search_step_next_cases pda w st st' h
  rw [hs, frontier_weight_cons]
  have hwpos : 0 < cfg_weight (total_alts pda + 1) w.length (state, stack, index) :=
    Nat.pos_pow_of_pos _ (Nat.succ_pos _)
  cases hcase with
  | inl h' =>
    rw [h']
    omega
  | inr h' =>
    obtain ⟨x, hg, hlt, h'⟩ := h'
    rw [h', frontier_weight_append]
    have hlen := consuming_succs_length pda w
      (st.visited.insert (state, stack, index)) stack x state index
    have hbound := frontier_weight_bound (total_alts pda + 1) w.length index
      (consuming_succs pda w (st.visited.insert (state, stack, index)) stack x state index)
      (fun c hc => (consuming_succs_mem hc).1)
    have hXpos : 0 < (total_alts pda + 1) ^ (w.length - index) :=
      Nat.pos_pow_of_pos _ (Nat.succ_pos _)
    have hcw : cfg_weight (total_alts pda + 1) w.length (state, stack, index) =
        (total_alts pda + 1) ^ (w.length - index) * (total_alts pda + 1) := by
      show (total_alts pda + 1) ^ (w.length + 1 - index) = _
      rw [← pow_succ]
      congr 1
      omega
    have hkey : frontier_weight (total_alts pda + 1) w.length
        (consuming_succs pda w (st.visited.insert (state, stack, index)) stack x state index) <
        cfg_weight (total_alts pda + 1) w.length (state, stack, index) := by
      rw [hcw]
      calc frontier_weight (total_alts pda + 1) w.length _
          ≤ (consuming_succs pda w (st.visited.insert (state, stack, index))
              stack x state index).length * (total_alts pda + 1) ^ (w.length - index) :=
            hbound
        _ ≤ total_alts pda * (total_alts pda + 1) ^ (w.length - index) :=
            Nat.mul_le_mul_right _ hlen
        _ < (total_alts pda + 1) ^ (w.length - index) * (total_alts pda + 1) :=
            lt_of_lt_of_eq (mul_lt_mul_of_pos_right (Nat.lt_succ_self _) hXpos)
              (Nat.mul_comm _ _)
    omega

theorem search_loop_ne_out (pda : PDA) (w : List Label) :
    ∀ (fuel : Nat) (st : SearchState),
      frontier_weight (total_alts pda + 1) w.length st.states < fuel →
      search_loop pda w fuel st ≠ .out := by
  intro fuel
  induction fuel with
  | zero => intro st h; exact absurd h (Nat.not_lt_zero _)
  | succ n ih =>
    intro st h
    cases hstep : search_step pda w st with
    | done r => simp [search_loop, hstep]
    | next st' =>
      have hd := step_decrease pda w st st' hstep
      simp only [search_loop, hstep]
      exact ih st' (by omega)

/-- Claim C6 (amended): for every automaton and every input the acceptance
query halts after finitely many loop iterations — the fuel budget
`fuel_bound` is never exhausted — returning `true`, `false`, or an
empty-stack error.  Epsilon moves cannot cause divergence: the first
applicable epsilon alternative ends the query on the spot, and every other
enqueued successor strictly advances the cursor. -/
theorem search_terminates (pda : PDA) (w : List Label) :
    ∃ r, search_loop pda w (fuel_bound pda w) (initial_search_state pda) =
      .result r := by
  cases hres : search_loop pda w (fuel_bound pda w) (initial_search_state pda) with
  | out =>
    exact absurd hres (by
      apply search_loop_ne_out
      unfold fuel_bound initial_search_state frontier_weight cfg_weight
      simp)
  | result r => exact ⟨r, rfl⟩

/-- Claim C7 (amended): whenever a loop iteration continues the search, it
dequeues the head configuration, adds it (and only it) to the visited set,
and every NEWLY enqueued configuration is absent from the updated visited
set — a configuration already visited, i.e. already dequeued, is never
enqueued again.  (The visited set records dequeued configurations, not
enqueued ones, so duplicates can coexist in the frontier.) -/
theorem visited_dequeue_invariant (pda : PDA) (w : List Label)
    (st st' : SearchState) (h : search_step pda w st = .next st') :
    ∃ c rest news, st.states = c :: rest ∧
      st'.visited = st.visited.insert c ∧
      st'.states = rest ++ news ∧
      ∀ d ∈ news, st'.visited.contains d = false := by
  obtain ⟨state, stack, index, rest, hs, hv, hcase⟩ :=
    search_step_next_cases pda w st st' h
  cases hcase with
  | inl h' =>
    exact ⟨(state, stack, index), rest, [], hs, hv, by simp [h'], by simp⟩
  | inr h' =>
    obtain ⟨x, hg, hlt, h'⟩ := h'
    refine ⟨(state, stack, index), rest, _, hs, hv, h', ?_⟩
    intro d hd
    rw [hv]
    exact (consuming_succs_mem hd).2

/-- Witness for `visited_dequeue_invariant`: the expansion of the initial
configuration of `dup_succ_pda` on input `"a"`. -/
theorem visited_dequeue_invariant_witness :
    ∃ c rest news,
      (SearchState.mk [("q0", ["Z"], 0)] []).states = c :: rest ∧
      (SearchState.mk [("q1", ["Z"], 1), ("q1", ["Z"], 1)]
          [("q0", ["Z"], 0)]).visited =
        (SearchState.mk [("q0", ["Z"], 0)] []).visited.insert c ∧
      (SearchState.mk [("q1", ["Z"], 1), ("q1", ["Z"], 1)]
          [("q0", ["Z"], 0)]).states = rest ++ news ∧
      ∀ d ∈ news,
        (SearchState.mk [("q1", ["Z"], 1), ("q1", ["Z"], 1)]
            [("q0", ["Z"], 0)]).visited.contains d = false :=
  visited_dequeue_invariant dup_succ_pda ["a"] ⟨[("q0", ["Z"], 0)], []⟩
    ⟨[("q1", ["Z"], 1), ("q1", ["Z"], 1)], [("q0", ["Z"], 0)]⟩ rfl

/-- Claim C10: a transition table that omits entries is handled totally.
`sparse_pda` (state `q1` has no entry at all; `q0` has none for `b` and no
epsilon entry) passes construction-time validation, and in general a
dequeued configuration whose state has no epsilon entry and no entry for
the current input symbol is abandoned without any error: the iteration
continues with the rest of the frontier, enqueuing nothing. -/
theorem missing_entries_total :
    validate_self sparse_pda = Except.ok () ∧
    ∀ (pda : PDA) (w : List Label) (state : Label) (stack : List Label)
      (index : Nat) (stack_symbol : Label) (rest visited0 : List Config),
      ((index == w.length) && pda.final_states.contains state) = false →
      ¬ w.length < index →
      stack.getLast? = some stack_symbol →
      eps_alts pda state = [] →
      alookup (state_trans pda state) (w.getD index "") = none →
      search_expand pda w state stack index rest visited0 =
        .next ⟨rest, visited0.insert (state, stack, index)⟩ := by
  refine ⟨rfl, ?_⟩
  intro pda w state stack index stack_symbol rest visited0 h1 h2 h3 h4 h5
  unfold search_expand
  rw [h3]
  simp [h1, h2, h4, consuming_succs]
  by_cases hacc : index = w.length ∧ state ∈ pda.final_states
  · exact absurd h1 (by simp [hacc.1, hacc.2])
  · rw [if_neg hacc]
    by_cases hbeq : index = w.length
    · rw [if_pos hbeq]
    · rw [if_neg hbeq]
      have h5n : alookup (state_trans pda state) (w[index]?.getD "") = none := by
        simpa using h5
      simp [h5n]

/-- Witness for `missing_entries_total`: expanding the initial configuration
of `sparse_pda` on input `"b"` (no entry for `b`, no epsilon entry). -/
theorem missing_entries_total_witness :
    search_expand sparse_pda ["b"] "q0" ["Z"] 0 [] [] =
      .next ⟨[], List.insert ("q0", ["Z"], 0) []⟩ :=
  missing_entries_total.2 sparse_pda ["b"] "q0" ["Z"] 0 "Z" [] []
    (by decide) (by decide) (by decide) (by decide) (by decide)
